import Mathlib

/-!
# VoiceLabs (src/app.js): catalog and synthesis workflow

A shallow embedding of the `VoiceLabs` class of `src/app.js`.

* JavaScript strings are Lean `String`s, sequences of code points; on strings
  without lone surrogates the occurrences of one string in another are the
  same counted in code points or in UTF-16 code units. `trim` and `includes`
  are defined here; `toLowerCase` and `parseFloat` are built-ins of the host
  whose tables are not part of the repository and are taken as parameters.
* The fields of `this` that the workflow reads and writes form the record
  `VoiceLabs`. A method takes the record and the values it reads from the
  page and returns an `Outcome`: the record afterwards, the calls it made on
  the outside world in order, the timers it scheduled, and how it completed.
* The remote collection store, the media service and the clock are the
  responses of `Services`.
* The script is single-threaded, and handlers of page events run while a
  method waits on a call. For `cloneVoice` the file events that arrive during
  its awaits are the parameter `events` of `cloneVoiceDuring`.
* Rendering (`renderCommunityVoices`, `updateVoiceLibrary`,
  `updateVoiceSelect`, button and spinner state) writes only to the page and
  is left out; notifications and console errors are kept as calls.
-/

namespace App

/-! ## Strings -/

/-- White space and line terminators of ECMAScript, the code points removed
by `String.prototype.trim`. -/
def isWhiteSpace (c : Char) : Bool :=
  decide (c.toNat ∈ [0x09, 0x0A, 0x0B, 0x0C, 0x0D, 0x20, 0xA0, 0x1680, 0x2028, 0x2029,
    0x202F, 0x205F, 0x3000, 0xFEFF]) || (decide (0x2000 ≤ c.toNat) && decide (c.toNat ≤ 0x200A))

/-- The method `s.trim()`. -/
def trim (s : String) : String :=
  ⟨((s.data.dropWhile isWhiteSpace).reverse.dropWhile isWhiteSpace).reverse⟩

/-- The method `s.includes(t)`: `t` occurs in `s` at some position. -/
def includes (s t : String) : Bool :=
  s.data.tails.any (fun u => t.data.isPrefixOf u)

/-- The method `s.startsWith(t)`. -/
def startsWith (s t : String) : Bool :=
  t.data.isPrefixOf s.data

/-- Truthiness of a string: `!s` holds exactly for the empty string. -/
def truthy (s : String) : Bool :=
  !(s == "")

/-! ## Data model -/

/-- A number of JavaScript, as the bit pattern of its IEEE-754 double. -/
structure JSNumber where
  bits : Nat
  deriving DecidableEq, Repr

/-- The values stored in a field that the code fills from either a string or
a number. -/
inductive JSValue where
  | str (s : String)
  | num (x : JSNumber)
  deriving DecidableEq, Repr

/-- A browser `File`, as far as the code looks at it. -/
structure File where
  name : String
  type : String
  deriving DecidableEq, Repr

/-- The result of `getCurrentUser()`. -/
structure User where
  username : String
  deriving DecidableEq, Repr

/-- The object literal passed to `collection('voices').create`. -/
structure VoiceRecord where
  name : String
  description : String
  language : String
  audio_files : List String
  samples_count : Nat
  created_at : String
  is_public : Bool
  creator_username : Option String
  deriving DecidableEq, Repr

/-- A record of the `voices` collection as the store returns it. The store
holds what any client wrote, so `description` may be missing. -/
structure Voice where
  id : String
  name : String
  description : Option String
  language : String
  audio_files : List String
  samples_count : Nat
  created_at : String
  is_public : Bool
  creator_username : Option String
  deriving DecidableEq, Repr

/-- The object literal passed to `websim.textToSpeech`. -/
structure TTSRequest where
  text : String
  voice : String
  speed : JSNumber
  pitch : JSNumber
  deriving DecidableEq, Repr

/-- The object literal passed to `collection('tts_syntheses').create`. -/
structure SynthesisRecord where
  voice_id : String
  text : String
  audio_url : String
  speed : JSValue
  pitch : JSValue
  voice_name : String
  created_at : String
  deriving DecidableEq, Repr

/-- The fields of `this` used by the workflow. `communityVoices` and
`audioFiles` are not set by the constructor, hence optional.
`maxCommunityVoices` is a number of the host; it is only passed to `slice`,
which reads it as an integer, and it is held here as that integer, negative
values included. -/
structure VoiceLabs where
  currentUser : Option User
  voices : List Voice
  maxCommunityVoices : Int
  communityVoices : Option (List Voice)
  audioFiles : Option (List File)
  deriving DecidableEq, Repr

/-- The state the constructor leaves: `voices = []`, `maxCommunityVoices = 50`. -/
def constructor : VoiceLabs :=
  { currentUser := none, voices := [], maxCommunityVoices := 50,
    communityVoices := none, audioFiles := none }

/-- The object `websim.textToSpeech` resolves to. -/
structure TTSResult where
  url : String
  deriving DecidableEq, Repr

/-! ## The outside world -/

/-- What the external services answer. A rejected promise is `.error`.
`upload k file` is the answer to the `k`-th `websim.upload` call of a
`cloneVoice` run (counted from 0), `getList isPublicFilter` the answer of
`collection('voices')[.filter({ is_public: true })].getList()`, and `now` the
value of `new Date().toISOString()`. -/
structure Services where
  upload : Nat → File → Except String String
  createVoice : VoiceRecord → Except String Voice
  getList : Bool → Except String (List Voice)
  textToSpeech : TTSRequest → Except String TTSResult
  createSynthesis : SynthesisRecord → Except String Unit
  now : String

/-- One call made on the outside world. -/
inductive Call where
  /-- The call `websim.upload(file)` -/
  | upload (file : File)
  /-- The call `this.room.collection('voices').create(record)` -/
  | createVoice (record : VoiceRecord)
  /-- The call `this.room.collection('voices').getList()`, after `.filter({ is_public: true })`
  when the flag is set -/
  | getList (isPublicFilter : Bool)
  /-- The call `websim.textToSpeech(request)` -/
  | textToSpeech (request : TTSRequest)
  /-- The call `this.room.collection('tts_syntheses').create(record)` -/
  | createSynthesis (record : SynthesisRecord)
  /-- The call `this.showNotification(message, type)` -/
  | showNotification (message type : String)
  /-- The call `console.error(message, error)` -/
  | consoleError (message error : String)
  deriving DecidableEq, Repr

/-- The closure handed to `setTimeout` by `cloneVoice`: its delay and the two
variables it captures. -/
structure Timer where
  delay : Nat
  voice : Voice
  publishToCommunity : Bool
  deriving DecidableEq, Repr

/-- The result of running a method: the fields of `this` afterwards, the calls
made in order, the timers scheduled, and the exception that leaves the method
(`none` when it returns or its promise resolves). -/
structure Outcome where
  self : VoiceLabs
  calls : List Call
  timers : List Timer
  thrown : Option String
  deriving DecidableEq, Repr

/-- The records of the `create` calls on `voices`, in order. -/
def voiceCreates (calls : List Call) : List VoiceRecord :=
  calls.filterMap (fun c => match c with | .createVoice r => some r | _ => none)

/-- The records of the `create` calls on `tts_syntheses`, in order. -/
def synthesisCreates (calls : List Call) : List SynthesisRecord :=
  calls.filterMap (fun c => match c with | .createSynthesis r => some r | _ => none)

/-- The files of the `websim.upload` calls, in order. -/
def uploadCalls (calls : List Call) : List File :=
  calls.filterMap (fun c => match c with | .upload f => some f | _ => none)

/-- The requests of the `websim.textToSpeech` calls, in order. -/
def ttsCalls (calls : List Call) : List TTSRequest :=
  calls.filterMap (fun c => match c with | .textToSpeech r => some r | _ => none)

/-- The `error` notifications shown, in order. -/
def errorNotifications (calls : List Call) : List String :=
  calls.filterMap (fun c => match c with
    | .showNotification m t => if t = "error" then some m else none
    | _ => none)

/-! ## Loading the two caches -/

/-- The method `xs.slice(start, stop)` of arrays, for integer arguments: a
negative argument counts from the end, and both are clamped to the array. -/
def slice {α : Type} (xs : List α) (start stop : Int) : List α :=
  let len : Int := xs.length
  let k := if start < 0 then max (len + start) 0 else min start len
  let final := if stop < 0 then max (len + stop) 0 else min stop len
  (xs.drop k.toNat).take (final - k).toNat

/-- The method `loadCommunityVoices()` (lines 125-138). The constant
`fetchLimit` of the source is declared and never read: the list call carries
no limit. -/
def loadCommunityVoices (env : Services) (self : VoiceLabs) : Outcome :=
  -- try
  match env.getList true with
  | .ok voices =>
    let communityVoices := slice voices.reverse 0 self.maxCommunityVoices
    { self := { self with communityVoices := some communityVoices },
      calls := [.getList true], timers := [], thrown := none }
  -- catch (error)
  | .error error =>
    { self := self,
      calls := [.getList true, .consoleError "Error loading community voices:" error],
      timers := [], thrown := none }

/-- The method `loadVoices()` (lines 281-290). The field `loadTimeout` of the
source is never read: the list call is awaited without a timer. -/
def loadVoices (env : Services) (self : VoiceLabs) : Outcome :=
  -- try
  match env.getList false with
  | .ok voices =>
    { self := { self with voices := voices },
      calls := [.getList false], timers := [], thrown := none }
  -- catch (error)
  | .error error =>
    { self := self,
      calls := [.getList false, .consoleError "Error loading voices:" error],
      timers := [], thrown := none }

/-! ## `handleFiles` and `cloneVoice` -/

/-- The method `handleFiles(files)` (lines 197-207). -/
def handleFiles (self : VoiceLabs) (files : List File) : Outcome :=
  let validFiles := files.filter (fun file => startsWith file.type "audio/")
  if validFiles.length == 0 then
    { self := self, calls := [.showNotification "Please upload valid audio files" "error"],
      timers := [], thrown := none }
  else
    { self := { self with audioFiles := some validFiles },
      calls := [.showNotification (toString validFiles.length ++ " audio files loaded") "success"],
      timers := [], thrown := none }

/-- The values `cloneVoice` reads from the page. -/
structure CloneForm where
  voiceName : String
  voiceDesc : String
  voiceLang : String
  publishToCommunity : Bool
  deriving DecidableEq, Repr

/-- The handlers of the `drop` and `change` events of the upload area that run
while a call of `cloneVoice` is pending: one `handleFiles` per event, in
order. Returns the instance afterwards and the calls made. -/
def deliver (self : VoiceLabs) : List (List File) → VoiceLabs × List Call
  | [] => (self, [])
  | files :: rest =>
    let o := handleFiles self files
    let r := deliver o.self rest
    (r.1, o.calls ++ r.2)

/-- The upload loop of `cloneVoice`: `for (const file of this.audioFiles)` over
the array read when the loop starts, at call number `k` with `uploadedUrls`
collected so far. While the `k`-th upload is pending the events `events k`
are handled. Returns the collected URLs, or the error of the first rejected
upload, the calls made, and the instance afterwards. -/
def uploadLoop (upload : Nat → File → Except String String) (events : Nat → List (List File)) :
    Nat → List File → List String → VoiceLabs →
      Except String (List String) × List Call × VoiceLabs
  | _, [], uploadedUrls, self => (.ok uploadedUrls, [], self)
  | k, file :: rest, uploadedUrls, self =>
    let d := deliver self (events k)
    match upload k file with
    | .error error => (.error error, .upload file :: d.2, d.1)
    | .ok url =>
      let r := uploadLoop upload events (k + 1) rest (uploadedUrls ++ [url]) d.1
      (r.1, .upload file :: (d.2 ++ r.2.1), r.2.2)

/-- The `catch` block of `cloneVoice`, reached with the calls made so far. -/
def cloneVoiceCatch (self : VoiceLabs) (calls : List Call) (error : String) : Outcome :=
  { self := self,
    calls := calls ++ [.consoleError "Error cloning voice:" error,
      .showNotification "Error cloning voice" "error"],
    timers := [], thrown := none }

/-- The method `cloneVoice()` (lines 209-279), with the values of the form as
`form` and the page events that arrive during its awaits as `events`: the
upload area stays enabled while the method runs, so `events k` are the file
lists dropped or chosen while the `k`-th upload is pending, and `events n`,
for `n` the number of uploads, those that arrive while `create` is pending.
The loop iterates the array read at its start; `this.audioFiles.length` is
read again when the record is built (line 246). -/
def cloneVoiceDuring (env : Services) (events : Nat → List (List File)) (self : VoiceLabs)
    (form : CloneForm) : Outcome :=
  let name := trim form.voiceName
  let description := trim form.voiceDesc
  let language := form.voiceLang
  let publishToCommunity := form.publishToCommunity
  if !(truthy name) || self.audioFiles.isNone || (self.audioFiles.getD []).length == 0 then
    { self := self,
      calls := [.showNotification "Please provide a name and upload audio files" "error"],
      timers := [], thrown := none }
  else
    let refreshDelay := 1000
    -- try
    match uploadLoop env.upload events 0 (self.audioFiles.getD []) [] self with
    | (.error error, uploads, self1) => cloneVoiceCatch self1 uploads error
    | (.ok uploadedUrls, uploads, self1) =>
      match self1.audioFiles with
      | none => cloneVoiceCatch self1 uploads "TypeError"
      | some audioFiles =>
        let record : VoiceRecord :=
          { name := name
            description := description
            language := language
            audio_files := uploadedUrls
            samples_count := audioFiles.length
            created_at := env.now
            is_public := publishToCommunity
            creator_username := self1.currentUser.map (fun u => u.username) }
        let d := deliver self1 (events (self.audioFiles.getD []).length)
        match env.createVoice record with
        | .error error =>
          cloneVoiceCatch d.1 (uploads ++ .createVoice record :: d.2) error
        | .ok voice =>
          { self := { d.1 with audioFiles := none },
            calls := uploads ++ .createVoice record :: (d.2 ++
              [.showNotification "Voice cloned successfully!" "success"]),
            timers := [{ delay := refreshDelay, voice := voice,
                         publishToCommunity := publishToCommunity }],
            thrown := none }

/-- A run of `cloneVoice()` during which no page event arrives. -/
def cloneVoice (env : Services) (self : VoiceLabs) (form : CloneForm) : Outcome :=
  cloneVoiceDuring env (fun _ => []) self form

/-- The body of the closure `cloneVoice` hands to `setTimeout`, run when the
timer fires. -/
def runTimer (env : Services) (self : VoiceLabs) (t : Timer) : Outcome :=
  let self1 := { self with voices := self.voices ++ [t.voice] }
  if t.publishToCommunity then
    loadCommunityVoices env self1
  else
    { self := self1, calls := [], timers := [], thrown := none }

/-! ## `generateTTS` -/

/-- The values `generateTTS` reads from the page. -/
structure TTSForm where
  voiceSelect : String
  ttsText : String
  speedSlider : String
  pitchSlider : String
  deriving DecidableEq, Repr

/-- The `catch` block of `generateTTS`, reached with the calls made so far. -/
def generateTTSCatch (self : VoiceLabs) (calls : List Call) (error : String) : Outcome :=
  { self := self,
    calls := calls ++ [.consoleError "Error generating TTS:" error,
      .showNotification "Error generating TTS" "error"],
    timers := [], thrown := none }

/-- The method `generateTTS()` (lines 339-404), with the values of the form as
`form`. The request always names the voice `en-male`; the selected voice is
looked up for its name only. -/
def generateTTS (parseFloat : String → JSNumber) (env : Services) (self : VoiceLabs)
    (form : TTSForm) : Outcome :=
  let voiceId := form.voiceSelect
  let text := trim form.ttsText
  let speed := form.speedSlider
  let pitch := form.pitchSlider
  if !(truthy voiceId) || !(truthy text) then
    { self := self,
      calls := [.showNotification "Please select a voice and enter text" "error"],
      timers := [], thrown := none }
  else
    -- try
    match self.voices.find? (fun v => v.id == voiceId) with
    | none => generateTTSCatch self [] "Voice not found"
    | some voice =>
      let request : TTSRequest :=
        { text := text
          voice := "en-male"
          speed := parseFloat speed
          pitch := parseFloat pitch }
      match env.textToSpeech request with
      | .error error => generateTTSCatch self [.textToSpeech request] error
      | .ok result =>
        let audioUrl := result.url
        let record : SynthesisRecord :=
          { voice_id := voiceId
            text := text
            audio_url := audioUrl
            speed := .str speed
            pitch := .str pitch
            voice_name := voice.name
            created_at := env.now }
        match env.createSynthesis record with
        | .error error =>
          generateTTSCatch self [.textToSpeech request, .createSynthesis record] error
        | .ok _ =>
          { self := self,
            calls := [.textToSpeech request, .createSynthesis record,
              .showNotification "TTS generated successfully!" "success"],
            timers := [], thrown := none }

/-- The request `generateTTS` passes to `websim.textToSpeech`. -/
def requestOf (parseFloat : String → JSNumber) (form : TTSForm) : TTSRequest :=
  { text := trim form.ttsText
    voice := "en-male"
    speed := parseFloat form.speedSlider
    pitch := parseFloat form.pitchSlider }

/-- The record `generateTTS` passes to `create` for the found `voice` and the
URL of the generated audio. -/
def recordOf (env : Services) (form : TTSForm) (voice : Voice) (audioUrl : String) :
    SynthesisRecord :=
  { voice_id := form.voiceSelect
    text := trim form.ttsText
    audio_url := audioUrl
    speed := .str form.speedSlider
    pitch := .str form.pitchSlider
    voice_name := voice.name
    created_at := env.now }

/-! ## `filterCommunityVoices` -/

/-- The callback of `this.communityVoices.filter` in `filterCommunityVoices`. -/
def filterCallback (toLowerCase : String → String) (searchTerm languageFilter : String)
    (voice : Voice) : Bool :=
  let matchesSearch :=
    includes (toLowerCase voice.name) searchTerm ||
      (match voice.description with
        | none => false
        | some d => truthy d && includes (toLowerCase d) searchTerm)
  let matchesLanguage := !(truthy languageFilter) || voice.language == languageFilter
  matchesSearch && matchesLanguage

/-- The method `filterCommunityVoices()` (lines 140-153), with the values of the `community-search` and
`language-filter` inputs as arguments. The result is the list handed to
`renderCommunityVoices`; reading `.filter` of an unset `communityVoices`
throws. -/
def filterCommunityVoices (toLowerCase : String → String) (self : VoiceLabs)
    (communitySearch languageFilterValue : String) : Except String (List Voice) :=
  let searchTerm := toLowerCase communitySearch
  let languageFilter := languageFilterValue
  match self.communityVoices with
  | none => .error "TypeError"
  | some communityVoices =>
    .ok (communityVoices.filter (filterCallback toLowerCase searchTerm languageFilter))

/-- Lower-casing of the ASCII letters only: agrees with `toLowerCase` on ASCII
strings, and is used to evaluate the definitions on concrete inputs. -/
def asciiLower (s : String) : String :=
  ⟨s.data.map Char.toLower⟩

/-! ## The specification's vocabulary -/

/-- The string `t` occurs in `s` as a contiguous run of characters. -/
def IsSubstring (t s : String) : Prop :=
  t.data <:+: s.data

/-- The keeping rule of the community filter as the specification words it:
(a) the search term is empty or its lower-cased form is a substring of the
lower-cased name or of the lower-cased description, and (b) the language code
is empty or equals the voice's language. -/
def SpecKeeps (toLowerCase : String → String) (searchTerm languageCode : String)
    (voice : Voice) : Prop :=
  (searchTerm = "" ∨ IsSubstring (toLowerCase searchTerm) (toLowerCase voice.name) ∨
      ∃ d, voice.description = some d ∧
        IsSubstring (toLowerCase searchTerm) (toLowerCase d)) ∧
    (languageCode = "" ∨ voice.language = languageCode)

instance (t s : String) : Decidable (IsSubstring t s) :=
  inferInstanceAs (Decidable (t.data <:+: s.data))

instance decidableExistsSome {α : Type} (o : Option α) (P : α → Prop) [DecidablePred P] :
    Decidable (∃ d, o = some d ∧ P d) :=
  match o with
  | none => isFalse (by simp)
  | some d => decidable_of_iff (P d) (by simp)

instance (toLowerCase : String → String) (searchTerm languageCode : String) :
    DecidablePred (SpecKeeps toLowerCase searchTerm languageCode) := fun voice => by
  unfold SpecKeeps
  infer_instance

/-! ## Sample data -/

/-- A public voice without description. -/
def echo : Voice :=
  { id := "v1", name := "Echo", description := none, language := "en",
    audio_files := ["http://x/e.wav"], samples_count := 1, created_at := "2024-01-01T00:00:00.000Z",
    is_public := true, creator_username := some "ann" }

/-- A public voice with a description. -/
def nova : Voice :=
  { id := "v2", name := "Nova", description := some "Bright", language := "fr",
    audio_files := ["http://x/n.wav"], samples_count := 1, created_at := "2024-01-02T00:00:00.000Z",
    is_public := true, creator_username := none }

/-- An instance whose two caches hold `echo` and `nova`. -/
def sampleLabs : VoiceLabs :=
  { constructor with voices := [echo, nova], communityVoices := some [echo, nova] }

/-- A stand-in for `parseFloat` at the slider positions used in the examples:
`1`, `0.5`, `1.5` and `2` as doubles, and NaN for the other strings. -/
def sliderFloat (s : String) : JSNumber :=
  if s = "1.0" ∨ s = "1" then ⟨0x3FF0000000000000⟩
  else if s = "0.5" then ⟨0x3FE0000000000000⟩
  else if s = "1.5" then ⟨0x3FF8000000000000⟩
  else if s = "2.0" ∨ s = "2" then ⟨0x4000000000000000⟩
  else ⟨0x7FF8000000000000⟩

/-- The stored record the sample store answers `create` with. -/
def storedVoice (r : VoiceRecord) : Voice :=
  { id := "v9", name := r.name, description := some r.description, language := r.language,
    audio_files := r.audio_files, samples_count := r.samples_count, created_at := r.created_at,
    is_public := r.is_public, creator_username := r.creator_username }

/-- Services in which every call succeeds. -/
def sampleServices : Services :=
  { upload := fun _ file => .ok ("http://x/" ++ file.name)
    createVoice := fun r => .ok (storedVoice r)
    getList := fun _ => .ok [echo, nova]
    textToSpeech := fun _ => .ok { url := "http://x/a.mp3" }
    createSynthesis := fun _ => .ok ()
    now := "2024-01-03T00:00:00.000Z" }

/-- Services in which the second upload of a run is rejected. -/
def secondUploadFails : Services :=
  { sampleServices with
    upload := fun k file => if k = 1 then .error "upload failed" else .ok ("http://x/" ++ file.name) }

/-- Services in which the list calls and the text-to-speech call are rejected. -/
def offlineServices : Services :=
  { sampleServices with
    getList := fun _ => .error "offline"
    textToSpeech := fun _ => .error "offline" }

/-- Three audio files. -/
def file1 : File := { name := "a.wav", type := "audio/wav" }

/-- See `file1`. -/
def file2 : File := { name := "b.wav", type := "audio/wav" }

/-- See `file1`. -/
def file3 : File := { name := "c.wav", type := "audio/wav" }

/-- Page events of a run in which three files are dropped on the upload area
while the first upload is pending. -/
def dropDuringFirstUpload : Nat → List (List File) :=
  fun k => if k = 0 then [[file1, file2, file3]] else []

/-- The clone form of the scenario of the specification: name `Test`, no
description, language `en`, not published. -/
def testForm : CloneForm :=
  { voiceName := "Test", voiceDesc := "", voiceLang := "en", publishToCommunity := false }

/-- The generate form of the scenario of the specification. -/
def helloForm : TTSForm :=
  { voiceSelect := "v1", ttsText := "Hello", speedSlider := "1.0", pitchSlider := "1.0" }

/-! ## Lemmas on strings -/

theorem includes_iff (s t : String) : includes s t = true ↔ IsSubstring t s := by
  unfold includes IsSubstring
  rw [List.any_eq_true]
  constructor
  · rintro ⟨u, hu, hp⟩
    exact List.infix_iff_prefix_suffix.mpr
      ⟨u, List.isPrefixOf_iff_prefix.mp hp, (List.mem_tails _ _).mp hu⟩
  · intro h
    obtain ⟨u, hp, hs⟩ := List.infix_iff_prefix_suffix.mp h
    exact ⟨u, (List.mem_tails _ _).mpr hs, List.isPrefixOf_iff_prefix.mpr hp⟩

theorem truthy_iff (s : String) : truthy s = true ↔ s ≠ "" := by
  simp [truthy]

theorem isSubstring_empty (s : String) : IsSubstring "" s := by
  show ([] : List Char) <:+: s.data
  exact List.nil_infix

theorem isSubstring_of_empty {t : String} (h : IsSubstring t "") : t = "" := by
  have h1 : t.data <:+: ([] : List Char) := h
  have h2 : t.data = [] := List.eq_nil_of_infix_nil h1
  cases t
  simp_all

/-! ## `filterCommunityVoices` -/

theorem filterCallback_iff (toLowerCase : String → String) (hlower : toLowerCase "" = "")
    (t L : String) (v : Voice) :
    filterCallback toLowerCase (toLowerCase t) L v = true ↔ SpecKeeps toLowerCase t L v := by
  have hname : includes (toLowerCase v.name) (toLowerCase t) = true ↔
      IsSubstring (toLowerCase t) (toLowerCase v.name) := includes_iff _ _
  have hlang : (!(truthy L) || v.language == L) = true ↔ (L = "" ∨ v.language = L) := by
    simp [truthy]
  unfold filterCallback SpecKeeps
  simp only [Bool.and_eq_true, Bool.or_eq_true, hlang, hname]
  refine and_congr_left (fun _ => ?_)
  constructor
  · rintro (h | h)
    · exact Or.inr (Or.inl h)
    · cases hd : v.description with
      | none => simp [hd] at h
      | some d =>
        simp only [hd, Bool.and_eq_true] at h
        exact Or.inr (Or.inr ⟨d, rfl, (includes_iff _ _).mp h.2⟩)
  · rintro (h | h | ⟨d, hd, h⟩)
    · left
      rw [h, hlower]
      exact isSubstring_empty _
    · exact Or.inl h
    · by_cases hd0 : d = ""
      · left
        rw [hd0, hlower] at h
        rw [isSubstring_of_empty h]
        exact isSubstring_empty _
      · right
        simp only [hd, Bool.and_eq_true]
        exact ⟨(truthy_iff d).mpr hd0, (includes_iff _ _).mpr h⟩

/-- C1: on a cached community list, `filterCommunityVoices` yields exactly the
cached voices, in cached order, that satisfy the keeping rule of the
specification (`SpecKeeps`); hence every voice it yields contains the
lower-cased term in its lower-cased name or description, and has the requested
language when the language code is not empty. -/
theorem filterCommunityVoices_spec (toLowerCase : String → String) (self : VoiceLabs)
    (cached : List Voice) (searchTerm languageCode : String)
    (hlower : toLowerCase "" = "") (hcache : self.communityVoices = some cached) :
    filterCommunityVoices toLowerCase self searchTerm languageCode =
        .ok (cached.filter (fun v => decide (SpecKeeps toLowerCase searchTerm languageCode v))) ∧
      ∀ result, filterCommunityVoices toLowerCase self searchTerm languageCode = .ok result →
        ∀ v ∈ result,
          (IsSubstring (toLowerCase searchTerm) (toLowerCase v.name) ∨
            ∃ d, v.description = some d ∧
              IsSubstring (toLowerCase searchTerm) (toLowerCase d)) ∧
          (languageCode ≠ "" → v.language = languageCode) := by
  have hfun : filterCallback toLowerCase (toLowerCase searchTerm) languageCode =
      fun v => decide (SpecKeeps toLowerCase searchTerm languageCode v) := by
    funext v
    rw [Bool.eq_iff_iff, decide_eq_true_iff]
    exact filterCallback_iff toLowerCase hlower searchTerm languageCode v
  have heq : filterCommunityVoices toLowerCase self searchTerm languageCode =
      .ok (cached.filter (fun v => decide (SpecKeeps toLowerCase searchTerm languageCode v))) := by
    simp only [filterCommunityVoices, hcache, hfun]
  refine ⟨heq, ?_⟩
  intro result hres v hv
  rw [heq] at hres
  injection hres with hres
  subst hres
  have hk : SpecKeeps toLowerCase searchTerm languageCode v := by
    simpa using (List.mem_filter.mp hv).2
  refine ⟨?_, fun hne => hk.2.resolve_left hne⟩
  rcases hk.1 with h | h | h
  · left
    rw [h, hlower]
    exact isSubstring_empty _
  · exact Or.inl h
  · exact Or.inr h

/-- Witness of C1: searching `EC` in the cache `[echo, nova]` yields `[echo]`,
whose lower-cased name contains `ec`. -/
theorem filterCommunityVoices_spec_witness :
    asciiLower "" = "" ∧ sampleLabs.communityVoices = some [echo, nova] ∧
      filterCommunityVoices asciiLower sampleLabs "EC" "" = .ok [echo] ∧
      (IsSubstring (asciiLower "EC") (asciiLower echo.name) ∨
        ∃ d, echo.description = some d ∧ IsSubstring (asciiLower "EC") (asciiLower d)) :=
  have h := filterCommunityVoices_spec asciiLower sampleLabs [echo, nova] "EC" "" rfl rfl
  ⟨rfl, rfl, rfl, (h.2 [echo] rfl echo (List.mem_singleton.mpr rfl)).1⟩

/-- C7: with an empty search term and an empty language code,
`filterCommunityVoices` yields the whole cached list, same elements in the
same order. -/
theorem filterCommunityVoices_empty (toLowerCase : String → String) (self : VoiceLabs)
    (cached : List Voice) (hlower : toLowerCase "" = "")
    (hcache : self.communityVoices = some cached) :
    filterCommunityVoices toLowerCase self "" "" = .ok cached := by
  have hall : ∀ v ∈ cached, filterCallback toLowerCase (toLowerCase "") "" v = true := by
    intro v _
    exact (filterCallback_iff toLowerCase hlower "" "" v).mpr ⟨Or.inl rfl, Or.inl rfl⟩
  simp only [filterCommunityVoices, hcache]
  rw [List.filter_eq_self.mpr hall]

/-- Witness of C7: the cache `[echo, nova]`. -/
theorem filterCommunityVoices_empty_witness :
    asciiLower "" = "" ∧ sampleLabs.communityVoices = some [echo, nova] ∧
      filterCommunityVoices asciiLower sampleLabs "" "" = .ok [echo, nova] :=
  ⟨rfl, rfl, filterCommunityVoices_empty asciiLower sampleLabs [echo, nova] rfl rfl⟩

/-! ## Loading the caches -/

theorem slice_zero_natCast {α : Type} (xs : List α) (n : Nat) :
    slice xs 0 (n : Int) = xs.take n := by
  have h1 : ¬ ((n : Int) < 0) := by omega
  have h2 : min (0 : Int) (xs.length : Int) = 0 := by omega
  simp only [slice, lt_irrefl, if_false, h1, h2, Int.toNat_zero, List.drop_zero, sub_zero]
  rcases Nat.le_total n xs.length with h | h
  · have : min (n : Int) (xs.length : Int) = (n : Int) := by omega
    rw [this, Int.toNat_ofNat]
  · have : min (n : Int) (xs.length : Int) = (xs.length : Int) := by omega
    rw [this, Int.toNat_ofNat, List.take_of_length_le h, List.take_length]

/-- C9, amended: when the store answers the `is_public` list call with
`fetched` and `maxCommunityVoices` is a natural number `n`,
`loadCommunityVoices` sets the community cache to the first `n` elements of
the reverse of `fetched`; so the cache holds at most `n` voices (50 after
construction) and, when `n` is positive, starts with the last fetched voice. -/
theorem loadCommunityVoices_cache (env : Services) (self : VoiceLabs) (fetched : List Voice)
    (n : Nat) (hfetch : env.getList true = .ok fetched)
    (hcap : self.maxCommunityVoices = (n : Int)) :
    (loadCommunityVoices env self).self.communityVoices = some (fetched.reverse.take n) ∧
      (fetched.reverse.take n).length ≤ n ∧
      (0 < n → (fetched.reverse.take n).head? = fetched.getLast?) ∧
      constructor.maxCommunityVoices = 50 := by
  refine ⟨?_, ?_, ?_, rfl⟩
  · simp [loadCommunityVoices, hfetch, hcap, slice_zero_natCast]
  · exact List.length_take_le _ _
  · intro hpos
    obtain ⟨m, hm⟩ := Nat.exists_eq_succ_of_ne_zero (Nat.pos_iff_ne_zero.mp hpos)
    rw [hm]
    cases hrev : fetched.reverse with
    | nil =>
      have : fetched = [] := by simpa using hrev
      simp [this]
    | cons a l =>
      have : fetched = l.reverse ++ [a] := by
        have := congrArg List.reverse hrev
        simpa using this
      simp [this]

/-- Witness of C9, amended: the store answers `[echo, nova]` and the cap is 1. -/
theorem loadCommunityVoices_cache_witness :
    sampleServices.getList true = .ok [echo, nova] ∧
      ({ sampleLabs with maxCommunityVoices := 1 } : VoiceLabs).maxCommunityVoices = ((1 : Nat) : Int) ∧
      (loadCommunityVoices sampleServices { sampleLabs with maxCommunityVoices := 1 }).self.communityVoices
        = some [nova] ∧
      [nova].head? = [echo, nova].getLast? :=
  have h := loadCommunityVoices_cache sampleServices { sampleLabs with maxCommunityVoices := 1 }
    [echo, nova] 1 rfl rfl
  ⟨rfl, rfl, h.1, h.2.2.1 (by decide)⟩

/-- Counterexample to C9 as stated, with the store answering `[echo, nova]`:
at the cap -1 the cache is `[nova]`, one voice, which is more than the cap and
is not the first -1 elements of anything; at the cap 0 the cache is empty, so
the last fetched voice `nova` is not its first element. -/
theorem loadCommunityVoices_cap_counterexample :
    sampleServices.getList true = .ok [echo, nova] ∧
      (loadCommunityVoices sampleServices
        { sampleLabs with maxCommunityVoices := -1 }).self.communityVoices = some [nova] ∧
      ¬ (([nova].length : Int) ≤ -1) ∧
      (loadCommunityVoices sampleServices
        { sampleLabs with maxCommunityVoices := 0 }).self.communityVoices = some [] ∧
      ¬ (([] : List Voice).head? = [echo, nova].getLast?) := by
  refine ⟨rfl, ?_, by decide, ?_, by decide⟩
  · simp [loadCommunityVoices, sampleServices, slice, sampleLabs]
  · simp [loadCommunityVoices, sampleServices, slice, sampleLabs]

/-- C10: when the list call is rejected, `loadVoices` and `loadCommunityVoices`
leave every field of the instance, the two caches among them, as it was, and
no exception leaves them. -/
theorem load_failure_keeps_caches (env : Services) (self : VoiceLabs) :
    (∀ e, env.getList false = .error e →
        (loadVoices env self).self = self ∧
        (loadVoices env self).self.voices = self.voices ∧
        (loadVoices env self).thrown = none) ∧
      (∀ e, env.getList true = .error e →
        (loadCommunityVoices env self).self = self ∧
        (loadCommunityVoices env self).self.communityVoices = self.communityVoices ∧
        (loadCommunityVoices env self).thrown = none) := by
  constructor
  · intro e he
    simp [loadVoices, he]
  · intro e he
    simp [loadCommunityVoices, he]

/-- Witness of C10: both list calls rejected on the sample instance. -/
theorem load_failure_keeps_caches_witness :
    offlineServices.getList false = .error "offline" ∧
      offlineServices.getList true = .error "offline" ∧
      (loadVoices offlineServices sampleLabs).self.voices = [echo, nova] ∧
      (loadVoices offlineServices sampleLabs).thrown = none ∧
      (loadCommunityVoices offlineServices sampleLabs).self.communityVoices = some [echo, nova] ∧
      (loadCommunityVoices offlineServices sampleLabs).thrown = none :=
  have h := load_failure_keeps_caches offlineServices sampleLabs
  ⟨rfl, rfl, (h.1 "offline" rfl).2.1, (h.1 "offline" rfl).2.2,
    (h.2 "offline" rfl).2.1, (h.2 "offline" rfl).2.2⟩

/-! ## `cloneVoice` -/

theorem string_eq_empty_iff (s : String) : s = "" ↔ s.data = [] := by
  cases s
  simp [String.ext_iff]

theorem trim_eq_empty_iff (s : String) :
    trim s = "" ↔ ∀ c ∈ s.data, isWhiteSpace c = true := by
  rw [string_eq_empty_iff]
  simp only [trim, List.reverse_eq_nil_iff, List.dropWhile_eq_nil_iff, List.mem_reverse]
  constructor
  · intro h
    by_contra hne
    have hne2 : s.data.dropWhile isWhiteSpace ≠ [] := by
      intro h0
      exact hne (List.dropWhile_eq_nil_iff.mp h0)
    have h1 := List.head_dropWhile_not isWhiteSpace s.data hne2
    have h2 := h _ (List.head_mem hne2)
    simp [h2] at h1
  · intro h c hc
    rw [List.dropWhile_eq_nil_iff.mpr h] at hc
    simp at hc

theorem voiceCreates_append (a b : List Call) :
    voiceCreates (a ++ b) = voiceCreates a ++ voiceCreates b := by
  simp [voiceCreates, List.filterMap_append]

theorem uploadCalls_append (a b : List Call) :
    uploadCalls (a ++ b) = uploadCalls a ++ uploadCalls b := by
  simp [uploadCalls, List.filterMap_append]

theorem handleFiles_calls (self : VoiceLabs) (files : List File) :
    voiceCreates (handleFiles self files).calls = [] ∧
      uploadCalls (handleFiles self files).calls = [] := by
  unfold handleFiles
  by_cases h : ((files.filter (fun file => startsWith file.type "audio/")).length == 0) = true
  · simp only [h, if_true]
    exact ⟨rfl, rfl⟩
  · simp only [h, if_false]
    exact ⟨rfl, rfl⟩

theorem handleFiles_fields (self : VoiceLabs) (files : List File) :
    (handleFiles self files).self.voices = self.voices ∧
      (handleFiles self files).self.communityVoices = self.communityVoices ∧
      ((handleFiles self files).self.audioFiles.isSome = true ∨
        (handleFiles self files).self = self) := by
  unfold handleFiles
  by_cases h : ((files.filter (fun file => startsWith file.type "audio/")).length == 0) = true
  · simp [h]
  · simp [h]

theorem deliver_calls (drops : List (List File)) :
    ∀ self : VoiceLabs, voiceCreates (deliver self drops).2 = [] ∧
      uploadCalls (deliver self drops).2 = [] := by
  induction drops with
  | nil => intro self; exact ⟨rfl, rfl⟩
  | cons files rest ih =>
    intro self
    unfold deliver
    simp only [voiceCreates_append, uploadCalls_append]
    rw [(handleFiles_calls self files).1, (handleFiles_calls self files).2,
      (ih (handleFiles self files).self).1, (ih (handleFiles self files).self).2]
    exact ⟨rfl, rfl⟩

theorem deliver_fields (drops : List (List File)) :
    ∀ self : VoiceLabs, (deliver self drops).1.voices = self.voices ∧
      (deliver self drops).1.communityVoices = self.communityVoices ∧
      (self.audioFiles.isSome = true → (deliver self drops).1.audioFiles.isSome = true) := by
  induction drops with
  | nil => intro self; exact ⟨rfl, rfl, id⟩
  | cons files rest ih =>
    intro self
    unfold deliver
    obtain ⟨h1, h2, h3⟩ := handleFiles_fields self files
    obtain ⟨i1, i2, i3⟩ := ih (handleFiles self files).self
    refine ⟨i1.trans h1, i2.trans h2, fun hs => i3 ?_⟩
    rcases h3 with h3 | h3
    · exact h3
    · rw [h3]; exact hs

theorem uploadLoop_calls (upload : Nat → File → Except String String)
    (events : Nat → List (List File)) :
    ∀ (files : List File) (k : Nat) (urls : List String) (self : VoiceLabs),
      voiceCreates (uploadLoop upload events k files urls self).2.1 = [] := by
  intro files
  induction files with
  | nil => intro k urls self; rfl
  | cons file rest ih =>
    intro k urls self
    unfold uploadLoop
    have hd := (deliver_calls (events k) self).1
    cases upload k file with
    | error e =>
      simpa [voiceCreates] using hd
    | ok url =>
      have hr := ih (k + 1) (urls ++ [url]) (deliver self (events k)).1
      have : voiceCreates (Call.upload file ::
          ((deliver self (events k)).2 ++
            (uploadLoop upload events (k + 1) rest (urls ++ [url])
              (deliver self (events k)).1).2.1)) =
          voiceCreates ((deliver self (events k)).2 ++
            (uploadLoop upload events (k + 1) rest (urls ++ [url])
              (deliver self (events k)).1).2.1) := by
        simp [voiceCreates]
      simp only [this, voiceCreates_append, hd, hr, List.append_nil]

theorem uploadLoop_fields (upload : Nat → File → Except String String)
    (events : Nat → List (List File)) :
    ∀ (files : List File) (k : Nat) (urls : List String) (self : VoiceLabs),
      (uploadLoop upload events k files urls self).2.2.voices = self.voices ∧
      (uploadLoop upload events k files urls self).2.2.communityVoices =
        self.communityVoices ∧
      (self.audioFiles.isSome = true →
        (uploadLoop upload events k files urls self).2.2.audioFiles.isSome = true) := by
  intro files
  induction files with
  | nil => intro k urls self; exact ⟨rfl, rfl, id⟩
  | cons file rest ih =>
    intro k urls self
    unfold uploadLoop
    obtain ⟨d1, d2, d3⟩ := deliver_fields (events k) self
    cases upload k file with
    | error e => exact ⟨d1, d2, d3⟩
    | ok url =>
      obtain ⟨i1, i2, i3⟩ := ih (k + 1) (urls ++ [url]) (deliver self (events k)).1
      exact ⟨i1.trans d1, i2.trans d2, fun hs => i3 (d3 hs)⟩

theorem uploadLoop_quiet (upload : Nat → File → Except String String) :
    ∀ (files : List File) (k : Nat) (urls : List String) (self : VoiceLabs),
      (uploadLoop upload (fun _ => []) k files urls self).2.2 = self := by
  intro files
  induction files with
  | nil => intro k urls self; rfl
  | cons file rest ih =>
    intro k urls self
    unfold uploadLoop
    cases upload k file with
    | error e => rfl
    | ok url => exact ih (k + 1) (urls ++ [url]) self

theorem uploadLoop_ok (upload : Nat → File → Except String String)
    (events : Nat → List (List File)) :
    ∀ (files : List File) (k : Nat) (acc urls : List String) (self : VoiceLabs),
      (files.enumFrom k).map (fun p => upload p.1 p.2) = urls.map Except.ok →
      (uploadLoop upload events k files acc self).1 = .ok (acc ++ urls) ∧
      uploadCalls (uploadLoop upload events k files acc self).2.1 = files := by
  intro files
  induction files with
  | nil =>
    intro k acc urls self h
    have : urls = [] := by simpa using h.symm
    simp [uploadLoop, this, uploadCalls]
  | cons file rest ih =>
    intro k acc urls self h
    cases urls with
    | nil => simp at h
    | cons url urls =>
      simp only [List.enumFrom_cons, List.map_cons, List.cons.injEq] at h
      unfold uploadLoop
      rw [h.1]
      obtain ⟨i1, i2⟩ := ih (k + 1) (acc ++ [url]) urls (deliver self (events k)).1 h.2
      refine ⟨by simpa using i1, ?_⟩
      have : uploadCalls (Call.upload file ::
          ((deliver self (events k)).2 ++
            (uploadLoop upload events (k + 1) rest (acc ++ [url])
              (deliver self (events k)).1).2.1)) =
          file :: uploadCalls ((deliver self (events k)).2 ++
            (uploadLoop upload events (k + 1) rest (acc ++ [url])
              (deliver self (events k)).1).2.1) := by
        simp [uploadCalls]
      simp only [this, uploadCalls_append, (deliver_calls (events k) self).2, i2,
        List.nil_append]

theorem uploadLoop_error (upload : Nat → File → Except String String)
    (events : Nat → List (List File)) :
    ∀ (files : List File) (k : Nat) (urls : List String) (self : VoiceLabs) (i : Nat)
      (file : File) (e : String),
      files[i]? = some file → upload (k + i) file = .error e →
      ∃ e1, (uploadLoop upload events k files urls self).1 = .error e1 := by
  intro files
  induction files with
  | nil => intro k urls self i file e h; simp at h
  | cons f rest ih =>
    intro k urls self i file e hget hfail
    unfold uploadLoop
    cases hup : upload k f with
    | error e1 => exact ⟨e1, rfl⟩
    | ok url =>
      cases i with
      | zero =>
        simp at hget
        subst hget
        simp [hup] at hfail
      | succ j =>
        simp at hget
        have hfail2 : upload (k + 1 + j) file = .error e := by
          rw [← hfail]; congr 1; omega
        exact ih (k + 1) (urls ++ [url]) (deliver self (events k)).1 j file e hget hfail2


/-- C3: when the name consists of white space only (the empty name included) or
the stored audio file list is absent or empty, `cloneVoice` makes no upload
call and no create call, leaves every field of the instance (the two caches
and the stored audio files among them) as it was, schedules no timer, and
shows the validation error. -/
theorem cloneVoice_validation (env : Services) (self : VoiceLabs) (form : CloneForm)
    (h : (∀ c ∈ form.voiceName.data, isWhiteSpace c = true) ∨ self.audioFiles = none ∨
      self.audioFiles = some []) :
    uploadCalls (cloneVoice env self form).calls = [] ∧
      voiceCreates (cloneVoice env self form).calls = [] ∧
      (cloneVoice env self form).self = self ∧
      (cloneVoice env self form).timers = [] ∧
      errorNotifications (cloneVoice env self form).calls =
        ["Please provide a name and upload audio files"] := by
  have hcond : (!(truthy (trim form.voiceName)) || self.audioFiles.isNone ||
      (self.audioFiles.getD []).length == 0) = true := by
    rcases h with h | h | h
    · simp [truthy, (trim_eq_empty_iff _).mpr h]
    · simp [h]
    · simp [h]
  have heq : cloneVoice env self form =
      { self := self,
        calls := [.showNotification "Please provide a name and upload audio files" "error"],
        timers := [], thrown := none } := by
    unfold cloneVoice cloneVoiceDuring
    simp only [hcond, if_true]
  rw [heq]
  simp [uploadCalls, voiceCreates, errorNotifications]

/-- C2: when `cloneVoice` passes validation and the upload of file `i` is
rejected, no create call is made on `voices`, every field of the instance (the
own-voices cache and the community cache among them) is as it was, and no
timer that would add a voice is scheduled. -/
theorem cloneVoice_upload_failure (env : Services) (self : VoiceLabs) (form : CloneForm)
    (files : List File) (i : Nat) (file : File) (e : String)
    (hname : trim form.voiceName ≠ "") (hfiles : self.audioFiles = some files)
    (hi : files[i]? = some file) (hfail : env.upload i file = .error e) :
    voiceCreates (cloneVoice env self form).calls = [] ∧
      (cloneVoice env self form).self = self ∧
      (cloneVoice env self form).self.voices = self.voices ∧
      (cloneVoice env self form).self.communityVoices = self.communityVoices ∧
      (cloneVoice env self form).timers = [] := by
  have hne : files ≠ [] := by
    rintro rfl
    simp at hi
  have hcond : (!(truthy (trim form.voiceName)) || self.audioFiles.isNone ||
      (self.audioFiles.getD []).length == 0) = false := by
    simp [truthy, hname, hfiles, hne]
  obtain ⟨e1, he1⟩ := uploadLoop_error env.upload (fun _ => []) files 0 [] self i file e hi
    (by simpa using hfail)
  have hcalls := uploadLoop_calls env.upload (fun _ => []) files 0 [] self
  have hself := uploadLoop_quiet env.upload files 0 [] self
  have heq : cloneVoice env self form =
      cloneVoiceCatch self (uploadLoop env.upload (fun _ => []) 0 files [] self).2.1 e1 := by
    unfold cloneVoice cloneVoiceDuring
    simp only [hcond, Bool.false_eq_true, if_false]
    simp only [hfiles, Option.getD_some]
    rcases hloop : uploadLoop env.upload (fun _ => []) 0 files [] self with ⟨r, uploads, self1⟩
    rw [hloop] at he1 hself
    simp only at he1 hself
    subst he1
    subst hself
    rfl
  rw [heq]
  refine ⟨?_, rfl, rfl, rfl, rfl⟩
  simp only [cloneVoiceCatch, voiceCreates_append, hcalls]
  rfl

/-- In a valid run of `cloneVoice` whose uploads, in input order, answer
`urls`, whatever page events arrive: exactly one create call is made on
`voices`; its record has `audio_files` equal to `urls`, one per input file,
and `is_public` equal to the publish flag; its `samples_count` is the length
of `this.audioFiles` as the events during the uploads left it. -/
theorem cloneVoiceDuring_create (env : Services) (events : Nat → List (List File))
    (self : VoiceLabs) (form : CloneForm) (files : List File) (urls : List String)
    (hname : trim form.voiceName ≠ "") (hfiles : self.audioFiles = some files)
    (hne : files ≠ [])
    (hup : files.enum.map (fun p => env.upload p.1 p.2) = urls.map Except.ok) :
    ∃ record current, voiceCreates (cloneVoiceDuring env events self form).calls = [record] ∧
      uploadCalls (cloneVoiceDuring env events self form).calls = files ∧
      urls.length = files.length ∧
      record.audio_files = urls ∧
      record.is_public = form.publishToCommunity ∧
      (uploadLoop env.upload events 0 files [] self).2.2.audioFiles = some current ∧
      record.samples_count = current.length := by
  have hcond : (!(truthy (trim form.voiceName)) || self.audioFiles.isNone ||
      (self.audioFiles.getD []).length == 0) = false := by
    simp [truthy, hname, hfiles, hne]
  obtain ⟨hres, hupl⟩ := uploadLoop_ok env.upload events files 0 [] urls self hup
  have hvc := uploadLoop_calls env.upload events files 0 [] self
  have hsome := (uploadLoop_fields env.upload events files 0 [] self).2.2 (by simp [hfiles])
  have hlen : urls.length = files.length := by
    have := congrArg List.length hup
    simpa using this.symm
  rcases hloop : uploadLoop env.upload events 0 files [] self with ⟨r, uploads, self1⟩
  rw [hloop] at hres hupl hvc hsome
  simp only [List.nil_append] at hres hupl hvc hsome
  subst hres
  obtain ⟨current, hcur⟩ := Option.isSome_iff_exists.mp hsome
  have hd := deliver_calls (events files.length) self1
  refine ⟨{ name := trim form.voiceName, description := trim form.voiceDesc,
            language := form.voiceLang, audio_files := urls, samples_count := current.length,
            created_at := env.now, is_public := form.publishToCommunity,
            creator_username := self1.currentUser.map (fun u => u.username) }, current, ?_⟩
  unfold cloneVoiceDuring
  simp only [hcond, Bool.false_eq_true, if_false]
  simp only [hfiles, Option.getD_some, hloop, hcur]
  cases env.createVoice _ with
  | error e =>
    simp only [cloneVoiceCatch, voiceCreates_append, uploadCalls_append, hvc, hupl]
    simp [voiceCreates, uploadCalls, hlen] at hd ⊢
    exact ⟨hd.1, hd.2⟩
  | ok voice =>
    simp only [voiceCreates_append, uploadCalls_append, hvc, hupl]
    simp [voiceCreates, uploadCalls, hlen, List.filterMap_append] at hd ⊢
    exact ⟨hd.1, hd.2⟩

/-- In a valid run of `cloneVoice` during which no page event arrives and whose
uploads answer `urls`, the one record created has `samples_count` equal to the
length of its `audio_files`. -/
theorem cloneVoice_create_quiet (env : Services) (self : VoiceLabs) (form : CloneForm)
    (files : List File) (urls : List String)
    (hname : trim form.voiceName ≠ "") (hfiles : self.audioFiles = some files)
    (hne : files ≠ [])
    (hup : files.enum.map (fun p => env.upload p.1 p.2) = urls.map Except.ok) :
    ∃ record, voiceCreates (cloneVoice env self form).calls = [record] ∧
      record.audio_files = urls ∧
      record.samples_count = record.audio_files.length ∧
      record.is_public = form.publishToCommunity := by
  obtain ⟨record, current, h1, _, h3, h4, h5, h6, h7⟩ :=
    cloneVoiceDuring_create env (fun _ => []) self form files urls hname hfiles hne hup
  rw [uploadLoop_quiet, hfiles] at h6
  injection h6 with h6
  exact ⟨record, h1, h4, by rw [h7, h4, ← h6, h3], h5⟩

/-- C4, failing run: two files are stored and both uploads succeed, and three
files are dropped on the upload area while the first upload is pending. The
one record created has the two upload URLs as `audio_files` and
`samples_count` 3, the length of the list dropped, not 2. -/
theorem cloneVoiceDuring_samples_count_mismatch :
    uploadCalls (cloneVoiceDuring sampleServices dropDuringFirstUpload
        { sampleLabs with audioFiles := some [file1, file2] } testForm).calls =
        [file1, file2] ∧
      voiceCreates (cloneVoiceDuring sampleServices dropDuringFirstUpload
        { sampleLabs with audioFiles := some [file1, file2] } testForm).calls =
        [{ name := "Test", description := "", language := "en",
           audio_files := ["http://x/a.wav", "http://x/b.wav"], samples_count := 3,
           created_at := "2024-01-03T00:00:00.000Z", is_public := false,
           creator_username := none }] ∧
      (3 : Nat) ≠ ["http://x/a.wav", "http://x/b.wav"].length :=
  ⟨rfl, rfl, by decide⟩

/-- Witness of C3: a name of two blanks. -/
theorem cloneVoice_validation_witness :
    (∀ c ∈ ({ testForm with voiceName := "  " } : CloneForm).voiceName.data, isWhiteSpace c = true) ∧
      cloneVoice sampleServices { sampleLabs with audioFiles := some [file1] }
          { testForm with voiceName := "  " } =
        { self := { sampleLabs with audioFiles := some [file1] },
          calls := [.showNotification "Please provide a name and upload audio files" "error"],
          timers := [], thrown := none } ∧
      uploadCalls (cloneVoice sampleServices { sampleLabs with audioFiles := some [file1] }
          { testForm with voiceName := "  " }).calls = [] :=
  ⟨by decide, rfl,
    (cloneVoice_validation sampleServices { sampleLabs with audioFiles := some [file1] }
      { testForm with voiceName := "  " } (Or.inl (by decide))).1⟩

/-- Witness of C2: three files, the second upload rejected. -/
theorem cloneVoice_upload_failure_witness :
    trim testForm.voiceName ≠ "" ∧
      [file1, file2, file3][1]? = some file2 ∧
      secondUploadFails.upload 1 file2 = .error "upload failed" ∧
      voiceCreates (cloneVoice secondUploadFails
        { sampleLabs with audioFiles := some [file1, file2, file3] } testForm).calls = [] ∧
      (cloneVoice secondUploadFails
        { sampleLabs with audioFiles := some [file1, file2, file3] } testForm).self.voices
          = [echo, nova] ∧
      (cloneVoice secondUploadFails
        { sampleLabs with audioFiles := some [file1, file2, file3] } testForm).timers = [] :=
  have h := cloneVoice_upload_failure secondUploadFails
    { sampleLabs with audioFiles := some [file1, file2, file3] } testForm
    [file1, file2, file3] 1 file2 "upload failed" (by decide) rfl rfl rfl
  ⟨by decide, rfl, rfl, h.1, h.2.2.1, h.2.2.2.2⟩

/-! ## `generateTTS` -/

theorem generateTTS_invalid (parseFloat : String → JSNumber) (env : Services) (self : VoiceLabs)
    (form : TTSForm) (h : form.voiceSelect = "" ∨ trim form.ttsText = "") :
    generateTTS parseFloat env self form =
      { self := self,
        calls := [.showNotification "Please select a voice and enter text" "error"],
        timers := [], thrown := none } := by
  have hcond : (!(truthy form.voiceSelect) || !(truthy (trim form.ttsText))) = true := by
    rcases h with h | h <;> simp [truthy, h]
  unfold generateTTS
  simp only [hcond, if_true]

theorem generateTTS_valid (parseFloat : String → JSNumber) (env : Services) (self : VoiceLabs)
    (form : TTSForm) (hid : form.voiceSelect ≠ "") (htext : trim form.ttsText ≠ "") :
    generateTTS parseFloat env self form =
      match self.voices.find? (fun v => v.id == form.voiceSelect) with
      | none => generateTTSCatch self [] "Voice not found"
      | some voice =>
        match env.textToSpeech (requestOf parseFloat form) with
        | .error error =>
          generateTTSCatch self [.textToSpeech (requestOf parseFloat form)] error
        | .ok result =>
          match env.createSynthesis (recordOf env form voice result.url) with
          | .error error =>
            generateTTSCatch self [.textToSpeech (requestOf parseFloat form),
              .createSynthesis (recordOf env form voice result.url)] error
          | .ok _ =>
            { self := self,
              calls := [.textToSpeech (requestOf parseFloat form),
                .createSynthesis (recordOf env form voice result.url),
                .showNotification "TTS generated successfully!" "success"],
              timers := [], thrown := none } := by
  have hcond : (!(truthy form.voiceSelect) || !(truthy (trim form.ttsText))) = false := by
    simp [truthy, hid, htext]
  unfold generateTTS
  simp only [hcond, Bool.false_eq_true, if_false]
  rfl

/-- C5: when the voice id is empty, the trimmed text is empty, or no cached
voice has the voice id, `generateTTS` makes no text-to-speech call and no
create call on `tts_syntheses`, and shows an error notification; and when the
text-to-speech call is rejected, no create call is made on `tts_syntheses`. -/
theorem generateTTS_failure (parseFloat : String → JSNumber) (env : Services) (self : VoiceLabs)
    (form : TTSForm) :
    ((form.voiceSelect = "" ∨ trim form.ttsText = "" ∨
          ∀ v ∈ self.voices, v.id ≠ form.voiceSelect) →
        ttsCalls (generateTTS parseFloat env self form).calls = [] ∧
        synthesisCreates (generateTTS parseFloat env self form).calls = [] ∧
        (errorNotifications (generateTTS parseFloat env self form).calls =
            ["Please select a voice and enter text"] ∨
          errorNotifications (generateTTS parseFloat env self form).calls =
            ["Error generating TTS"])) ∧
      (∀ e, env.textToSpeech (requestOf parseFloat form) = .error e →
        synthesisCreates (generateTTS parseFloat env self form).calls = []) := by
  by_cases hinv : form.voiceSelect = "" ∨ trim form.ttsText = ""
  · rw [generateTTS_invalid parseFloat env self form hinv]
    simp [ttsCalls, synthesisCreates, errorNotifications]
  · have hid : form.voiceSelect ≠ "" := fun h => hinv (Or.inl h)
    have htext : trim form.ttsText ≠ "" := fun h => hinv (Or.inr h)
    rw [generateTTS_valid parseFloat env self form hid htext]
    constructor
    · intro h
      have hnone : self.voices.find? (fun v => v.id == form.voiceSelect) = none := by
        rcases h with h | h | h
        · exact absurd h hid
        · exact absurd h htext
        · rw [List.find?_eq_none]
          intro v hv
          simpa using h v hv
      rw [hnone]
      simp [generateTTSCatch, ttsCalls, synthesisCreates, errorNotifications]
    · intro e he
      cases self.voices.find? (fun v => v.id == form.voiceSelect) with
      | none => simp [generateTTSCatch, synthesisCreates]
      | some voice =>
        simp only [he]
        simp [generateTTSCatch, synthesisCreates]

/-- C6: for a non-empty voice id that some cached voice has, a non-empty
trimmed text and a text-to-speech answer `{url: u}`, `generateTTS` makes
exactly one create call on `tts_syntheses`; its record has the given voice id,
the trimmed text, `audio_url` equal to `u`, and `voice_name` equal to the name
of a cached voice with that id, which is the name of every cached voice with
that id when ids are distinct. -/
theorem generateTTS_create (parseFloat : String → JSNumber) (env : Services) (self : VoiceLabs)
    (form : TTSForm) (u : String)
    (hid : form.voiceSelect ≠ "") (htext : trim form.ttsText ≠ "")
    (hmem : ∃ v ∈ self.voices, v.id = form.voiceSelect)
    (htts : env.textToSpeech (requestOf parseFloat form) = .ok { url := u }) :
    ∃ record voice, synthesisCreates (generateTTS parseFloat env self form).calls = [record] ∧
      record.voice_id = form.voiceSelect ∧
      record.text = trim form.ttsText ∧
      record.audio_url = u ∧
      record.voice_name = voice.name ∧
      voice ∈ self.voices ∧ voice.id = form.voiceSelect ∧
      ((self.voices.map (fun v => v.id)).Nodup →
        ∀ w ∈ self.voices, w.id = form.voiceSelect → record.voice_name = w.name) := by
  obtain ⟨v0, hv0, hv0id⟩ := hmem
  cases hfind : self.voices.find? (fun v => v.id == form.voiceSelect) with
  | none =>
    rw [List.find?_eq_none] at hfind
    have := hfind v0 hv0
    simp [hv0id] at this
  | some voice =>
    have hvmem : voice ∈ self.voices := List.mem_of_find?_eq_some hfind
    have hvid : voice.id = form.voiceSelect := by
      have := List.find?_some hfind
      simpa using this
    refine ⟨recordOf env form voice u, voice, ?_, rfl, rfl, rfl, rfl, hvmem, hvid, ?_⟩
    · rw [generateTTS_valid parseFloat env self form hid htext, hfind]
      simp only [htts]
      cases env.createSynthesis (recordOf env form voice u) <;>
        simp [generateTTSCatch, synthesisCreates]
    · intro hnd w hw hwid
      have hwv : w = voice :=
        List.inj_on_of_nodup_map hnd hw hvmem (hwid.trans hvid.symm)
      rw [hwv]
      rfl

/-- C8, amended: in a generate call that reaches the create call, the record
stores the strings read from the speed and pitch sliders, and the
text-to-speech request carries `parseFloat` of those same strings. -/
theorem generateTTS_speed_pitch (parseFloat : String → JSNumber) (env : Services)
    (self : VoiceLabs) (form : TTSForm) (voice : Voice) (result : TTSResult)
    (hid : form.voiceSelect ≠ "") (htext : trim form.ttsText ≠ "")
    (hfind : self.voices.find? (fun v => v.id == form.voiceSelect) = some voice)
    (htts : env.textToSpeech (requestOf parseFloat form) = .ok result) :
    ∃ request record,
      ttsCalls (generateTTS parseFloat env self form).calls = [request] ∧
      synthesisCreates (generateTTS parseFloat env self form).calls = [record] ∧
      request.speed = parseFloat form.speedSlider ∧
      request.pitch = parseFloat form.pitchSlider ∧
      record.speed = .str form.speedSlider ∧
      record.pitch = .str form.pitchSlider := by
  refine ⟨requestOf parseFloat form, recordOf env form voice result.url, ?_, ?_,
    rfl, rfl, rfl, rfl⟩
  · rw [generateTTS_valid parseFloat env self form hid htext, hfind]
    simp only [htts]
    cases env.createSynthesis (recordOf env form voice result.url) <;>
      simp [generateTTSCatch, ttsCalls]
  · rw [generateTTS_valid parseFloat env self form hid htext, hfind]
    simp only [htts]
    cases env.createSynthesis (recordOf env form voice result.url) <;>
      simp [generateTTSCatch, synthesisCreates]

/-- Witness of C5: a voice id absent from the cache, and a rejected
text-to-speech call. -/
theorem generateTTS_failure_witness :
    (∀ v ∈ sampleLabs.voices, v.id ≠ ({ helloForm with voiceSelect := "v7" } : TTSForm).voiceSelect) ∧
      ttsCalls (generateTTS sliderFloat sampleServices sampleLabs
        { helloForm with voiceSelect := "v7" }).calls = [] ∧
      synthesisCreates (generateTTS sliderFloat sampleServices sampleLabs
        { helloForm with voiceSelect := "v7" }).calls = [] ∧
      offlineServices.textToSpeech (requestOf sliderFloat helloForm) = .error "offline" ∧
      synthesisCreates (generateTTS sliderFloat offlineServices sampleLabs helloForm).calls = [] :=
  have h1 := (generateTTS_failure sliderFloat sampleServices sampleLabs
    { helloForm with voiceSelect := "v7" }).1 (Or.inr (Or.inr (by decide)))
  have h2 := (generateTTS_failure sliderFloat offlineServices sampleLabs helloForm).2
    "offline" rfl
  ⟨by decide, h1.1, h1.2.1, rfl, h2⟩

/-- Witness of C6: the scenario `generate("v1", "Hello", 1.0, 1.0)` with the
answer `{url: "http://x/a.mp3"}`. -/
theorem generateTTS_create_witness :
    helloForm.voiceSelect ≠ "" ∧ trim helloForm.ttsText ≠ "" ∧
      (∃ v ∈ sampleLabs.voices, v.id = helloForm.voiceSelect) ∧
      sampleServices.textToSpeech (requestOf sliderFloat helloForm) =
        .ok { url := "http://x/a.mp3" } ∧
      ∃ record,
        synthesisCreates (generateTTS sliderFloat sampleServices sampleLabs helloForm).calls =
          [record] ∧
        record.voice_id = "v1" ∧ record.text = "Hello" ∧
        record.audio_url = "http://x/a.mp3" ∧ record.voice_name = "Echo" := by
  have hmem : ∃ v ∈ sampleLabs.voices, v.id = helloForm.voiceSelect :=
    ⟨echo, by decide, rfl⟩
  refine ⟨by decide, by decide, hmem, rfl, ?_⟩
  obtain ⟨record, voice, h1, h2, h3, h4, _, _, _, h8⟩ :=
    generateTTS_create sliderFloat sampleServices sampleLabs helloForm "http://x/a.mp3"
      (by decide) (by decide) hmem rfl
  exact ⟨record, h1, h2, h3, h4, h8 (by decide) echo (by decide) rfl⟩

/-- Counterexample to C8 as stated: in the scenario
`generate("v1", "Hello", 1.0, 1.0)` the text-to-speech request carries the
number 1 twice, the created record carries the string `1.0` twice, and so the
stored speed and pitch are not the numbers passed to the text-to-speech call. -/
theorem generateTTS_stores_numbers_counterexample :
    ttsCalls (generateTTS sliderFloat sampleServices sampleLabs helloForm).calls =
        [{ text := "Hello", voice := "en-male",
           speed := ⟨0x3FF0000000000000⟩, pitch := ⟨0x3FF0000000000000⟩ }] ∧
      synthesisCreates (generateTTS sliderFloat sampleServices sampleLabs helloForm).calls =
        [{ voice_id := "v1", text := "Hello", audio_url := "http://x/a.mp3",
           speed := .str "1.0", pitch := .str "1.0", voice_name := "Echo",
           created_at := "2024-01-03T00:00:00.000Z" }] ∧
      ¬ (∀ record ∈
            synthesisCreates (generateTTS sliderFloat sampleServices sampleLabs helloForm).calls,
          ∀ request ∈
            ttsCalls (generateTTS sliderFloat sampleServices sampleLabs helloForm).calls,
          record.speed = .num request.speed ∧ record.pitch = .num request.pitch) := by
  refine ⟨rfl, rfl, ?_⟩
  intro h
  have h1 := (h (recordOf sampleServices helloForm echo "http://x/a.mp3") (by decide)
    (requestOf sliderFloat helloForm) (by decide)).1
  exact absurd h1 (by decide)

/-- Witness of C8, amended: the scenario `generate("v1", "Hello", 1.0, 1.0)`. -/
theorem generateTTS_speed_pitch_witness :
    helloForm.voiceSelect ≠ "" ∧ trim helloForm.ttsText ≠ "" ∧
      sampleLabs.voices.find? (fun v => v.id == helloForm.voiceSelect) = some echo ∧
      sampleServices.textToSpeech (requestOf sliderFloat helloForm) =
        .ok { url := "http://x/a.mp3" } ∧
      ∃ request record,
        ttsCalls (generateTTS sliderFloat sampleServices sampleLabs helloForm).calls =
          [request] ∧
        synthesisCreates (generateTTS sliderFloat sampleServices sampleLabs helloForm).calls =
          [record] ∧
        request.speed = sliderFloat "1.0" ∧ request.pitch = sliderFloat "1.0" ∧
        record.speed = .str "1.0" ∧ record.pitch = .str "1.0" :=
  ⟨by decide, by decide, rfl, rfl,
    generateTTS_speed_pitch sliderFloat sampleServices sampleLabs helloForm echo
      { url := "http://x/a.mp3" } (by decide) (by decide) rfl rfl⟩

end App
